import Mathlib

/-!
Verification of the mesh ingestion and slicing subsystem of the Wire-EDM
simulator (src/utils/fileParser.ts, class ModelFileParser).

Modelling conventions:
* JS numbers are modelled by exact rationals (ℚ); the only irrational
  operation in the source, `Math.sqrt` (inside `Vector3.length` and
  `Vector3.distanceTo`), is modelled by `Real.sqrt` on the cast to ℝ.
* `THREE.BufferGeometry` is modelled by `BufferGeometry`: an optional list
  of 3-D vertices (the `position` attribute, one `Vec3` per vertex instead
  of a flat float array, so a flat-array offset `indices[i] * 3` becomes a
  direct list index `indices[i]`), an optional flat index list and an
  optional bounding box.  The `normal` attribute is omitted: the source's
  `computeVertexNormals` writes only that attribute and nothing verified
  here reads it.
* `THREE.Box3` on an empty point set is an "empty box" with infinite
  bounds whose `getCenter`/`getSize` return the zero vector; we use a
  degenerate zero box for the empty list, which has the same
  `getCenter`/`getSize` and only differs in the (infinite) raw bounds,
  read solely by the slicer where an empty mesh yields empty contours
  either way.
* JS out-of-range array reads yield `undefined`/NaN; list reads use
  `List.getD` with a zero default, and the triangle chunking `triples`
  drops a ragged tail (in JS such a tail produces NaN triangles that emit
  no intersection points and NaN metric contributions).
* JS division by zero yields Infinity; ℚ division by zero yields 0.  The
  only place this matters is the scale factor `100 / maxDimension` for a
  degenerate bounding box, where the source has no failure branch in
  either semantics (see the C1 theorem).
-/

namespace WireEDM

/-- A 3-D vector with rational coordinates, modelling THREE.Vector3. -/
structure Vec3 where
  x : ℚ
  y : ℚ
  z : ℚ
deriving DecidableEq

/-- Componentwise subtraction, THREE.Vector3.sub. -/
def Vec3.sub (a b : Vec3) : Vec3 :=
  ⟨a.x - b.x, a.y - b.y, a.z - b.z⟩

/-- Cross product, THREE.Vector3.cross.  (In the source `v2.cross(v3)`
mutates `v2` in place; its value is the mathematical cross product and
`v2` is not read again afterwards, so a pure function is faithful.) -/
def Vec3.cross (a b : Vec3) : Vec3 :=
  ⟨a.y * b.z - a.z * b.y, a.z * b.x - a.x * b.z, a.x * b.y - a.y * b.x⟩

/-- Dot product, THREE.Vector3.dot. -/
def Vec3.dot (a b : Vec3) : ℚ :=
  a.x * b.x + a.y * b.y + a.z * b.z

/-- Linear interpolation, THREE.Vector3.lerp: this + (v - this) * alpha. -/
def Vec3.lerp (a b : Vec3) (t : ℚ) : Vec3 :=
  ⟨a.x + (b.x - a.x) * t, a.y + (b.y - a.y) * t, a.z + (b.z - a.z) * t⟩

/-- Euclidean norm, THREE.Vector3.length: sqrt(x² + y² + z²). -/
noncomputable def Vec3.length (v : Vec3) : ℝ :=
  Real.sqrt ((v.x * v.x + v.y * v.y + v.z * v.z : ℚ) : ℝ)

/-- Euclidean distance, THREE.Vector3.distanceTo. -/
noncomputable def Vec3.distanceTo (a b : Vec3) : ℝ :=
  (a.sub b).length

/-- Axis-aligned bounding box, THREE.Box3 (`min`/`max` corners). -/
structure Box3 where
  lo : Vec3
  hi : Vec3
deriving DecidableEq

/-- THREE.Box3.getCenter: (min + max) * 0.5 (zero vector for an empty box). -/
def Box3.getCenter (b : Box3) : Vec3 :=
  ⟨(b.lo.x + b.hi.x) / 2, (b.lo.y + b.hi.y) / 2, (b.lo.z + b.hi.z) / 2⟩

/-- THREE.Box3.getSize: max - min (zero vector for an empty box). -/
def Box3.getSize (b : Box3) : Vec3 :=
  ⟨b.hi.x - b.lo.x, b.hi.y - b.lo.y, b.hi.z - b.lo.z⟩

/-- `Math.max(size.x, size.y, size.z)` of a box's size (parseFile line 81). -/
def Box3.maxDimension (b : Box3) : ℚ :=
  max b.getSize.x (max b.getSize.y b.getSize.z)

/-- Stand-in for THREE's empty box (see the modelling notes above). -/
def emptyBox : Box3 :=
  ⟨⟨0, 0, 0⟩, ⟨0, 0, 0⟩⟩

/-- A decoded THREE.BufferGeometry: optional position attribute (a list of
vertices), optional index attribute (a flat list of vertex indices) and
optional bounding box. -/
structure BufferGeometry where
  position : Option (List Vec3)
  index : Option (List ℕ)
  boundingBox : Option Box3

/-- Expand a box by one point (THREE.Box3.expandByPoint). -/
def expandByPoint (b : Box3) (p : Vec3) : Box3 :=
  ⟨⟨min b.lo.x p.x, min b.lo.y p.y, min b.lo.z p.z⟩,
   ⟨max b.hi.x p.x, max b.hi.y p.y, max b.hi.z p.z⟩⟩

/-- THREE.BufferGeometry.computeBoundingBox over the position attribute:
start from the first point and expand by each remaining point.  For the
empty attribute THREE produces its empty box (see modelling notes). -/
def computeBoundingBox : List Vec3 → Box3
  | [] => emptyBox
  | p :: rest => rest.foldl expandByPoint ⟨p, p⟩

/-- Chunk a list into consecutive triples, dropping a ragged tail: the
iteration pattern `for (i = 0; i < arr.length; i += 3)` over index triples
(and `i += 9` over 9-float vertex groups, here 3 `Vec3`s). -/
def triples {α : Type} : List α → List (α × α × α)
  | a :: b :: c :: rest => (a, b, c) :: triples rest
  | _ => []

/-- The list of triangles a metric loop visits: per index triple for an
indexed geometry (lines 139-151 / 169-183), per consecutive vertex triple
otherwise (lines 152-160 / 184-194). -/
def meshTriangles (g : BufferGeometry) : List (Vec3 × Vec3 × Vec3) :=
  let positions := g.position.getD []
  match g.index with
  | some indices =>
      (triples indices).map fun t =>
        (positions.getD t.1 ⟨0, 0, 0⟩, positions.getD t.2.1 ⟨0, 0, 0⟩,
         positions.getD t.2.2 ⟨0, 0, 0⟩)
  | none => triples positions

/-- ModelFileParser.calculateVolume (lines 135-163): accumulate the signed
tetrahedron volume dot(v1, cross(v2, v3)) / 6 of every triangle, then take
the absolute value. -/
def calculateVolume (g : BufferGeometry) : ℚ :=
  let positions := g.position.getD []
  let volume : ℚ :=
    match g.index with
    | some indices =>
        (triples indices).foldl
          (fun vol t =>
            let v1 := positions.getD t.1 ⟨0, 0, 0⟩
            let v2 := positions.getD t.2.1 ⟨0, 0, 0⟩
            let v3 := positions.getD t.2.2 ⟨0, 0, 0⟩
            vol + v1.dot (v2.cross v3) / 6) 0
    | none =>
        (triples positions).foldl
          (fun vol t => vol + t.1.dot (t.2.1.cross t.2.2) / 6) 0
  |volume|

/-- ModelFileParser.calculateSurfaceArea (lines 165-197): accumulate
|cross(edge1, edge2)| / 2 with edge1 = v2 - v1, edge2 = v3 - v1. -/
noncomputable def calculateSurfaceArea (g : BufferGeometry) : ℝ :=
  let positions := g.position.getD []
  match g.index with
  | some indices =>
      (triples indices).foldl
        (fun area t =>
          let v1 := positions.getD t.1 ⟨0, 0, 0⟩
          let v2 := positions.getD t.2.1 ⟨0, 0, 0⟩
          let v3 := positions.getD t.2.2 ⟨0, 0, 0⟩
          let edge1 := v2.sub v1
          let edge2 := v3.sub v1
          area + (edge1.cross edge2).length / 2) 0
  | none =>
      (triples positions).foldl
        (fun area t =>
          let edge1 := t.2.1.sub t.1
          let edge2 := t.2.2.sub t.1
          area + (edge1.cross edge2).length / 2) 0

/-- Accumulating a sum with `foldl` equals adding the mapped sum. -/
theorem foldl_add_map {α M : Type} [AddCommMonoid M] (f : α → M) :
    ∀ (l : List α) (a : M),
      l.foldl (fun acc x => acc + f x) a = a + (l.map f).sum
  | [], a => by simp
  | x :: l, a => by
      rw [List.foldl_cons, foldl_add_map f l (a + f x)]
      simp [add_assoc]

theorem calculateVolume_eq_abs_sum (g : BufferGeometry) :
    calculateVolume g =
      |((meshTriangles g).map fun t => t.1.dot (t.2.1.cross t.2.2) / 6).sum| := by
  unfold calculateVolume meshTriangles
  cases g.index with
  | none => simp [foldl_add_map]
  | some indices => simp [foldl_add_map, List.map_map, Function.comp_def]

/-- Claim C4: for every mesh (indexed, iterating index triples; or
non-indexed, iterating consecutive vertex triples), calculateVolume
returns the absolute value of the sum over all triangles (a, b, c) of
dot(a, cross(b, c)) / 6, and consequently its result is ≥ 0 regardless of
triangle winding order. -/
theorem calculateVolume_abs_and_nonneg (g : BufferGeometry) :
    calculateVolume g =
      |((meshTriangles g).map fun t => t.1.dot (t.2.1.cross t.2.2) / 6).sum| ∧
    0 ≤ calculateVolume g := by
  refine ⟨calculateVolume_eq_abs_sum g, ?_⟩
  rw [calculateVolume_eq_abs_sum g]
  exact abs_nonneg _

/-- The body of the `edges.forEach` callback of
getTriangleZPlaneIntersections (lines 261-272): if the edge spans the
plane Z = z within `tolerance` and its endpoints' Z values differ by more
than `tolerance`, emit the crossing point interpolated at
t = (z - startZ) / (endZ - startZ) with its Z forced to exactly z. -/
def edgeIntersection (start stop : Vec3) (z tolerance : ℚ) : List Vec3 :=
  if (start.z ≤ z + tolerance ∧ stop.z ≥ z - tolerance) ∨
     (start.z ≥ z - tolerance ∧ stop.z ≤ z + tolerance) then
    if tolerance < |start.z - stop.z| then
      let t := (z - start.z) / (stop.z - start.z)
      let intersection := start.lerp stop t
      [⟨intersection.x, intersection.y, z⟩]
    else []
  else []

/-- ModelFileParser.getTriangleZPlaneIntersections (lines 251-275): run
the per-edge test over the triangle's three edges (v1,v2), (v2,v3),
(v3,v1), pushing each emitted point. -/
def getTriangleZPlaneIntersections (v1 v2 v3 : Vec3) (z tolerance : ℚ) :
    List Vec3 :=
  [(v1, v2), (v2, v3), (v3, v1)].foldl
    (fun intersections e =>
      intersections ++ edgeIntersection e.1 e.2 z tolerance) []

/-- The predicate under which one edge emits an intersection point: the
conjunction of the two nested `if` conditions of lines 262-265. -/
def edgeQualifies (start stop : Vec3) (z tolerance : ℚ) : Prop :=
  ((start.z ≤ z + tolerance ∧ stop.z ≥ z - tolerance) ∨
   (start.z ≥ z - tolerance ∧ stop.z ≤ z + tolerance)) ∧
  tolerance < |start.z - stop.z|

instance (start stop : Vec3) (z tolerance : ℚ) :
    Decidable (edgeQualifies start stop z tolerance) := by
  unfold edgeQualifies
  infer_instance

/-- The inner for-loop of sortContourPoints (lines 288-294): scan the
remaining points from position `i` upward, keeping the index and distance
of the strictly nearest point seen so far. -/
noncomputable def nearestLoop (current : Vec3) :
    List Vec3 → ℕ → ℕ × ℝ → ℕ × ℝ
  | [], _, best => best
  | q :: qs, i, best =>
      nearestLoop current qs (i + 1)
        (if current.distanceTo q < best.2 then (i, current.distanceTo q)
         else best)

/-- Index of the nearest remaining point (lines 285-294): start with index
0 and the distance to the first remaining point, then scan from index 1. -/
noncomputable def findNearestIdx (current r0 : Vec3) (rs : List Vec3) : ℕ :=
  (nearestLoop current rs 1 (0, current.distanceTo r0)).1

/-- The while-loop of sortContourPoints (lines 283-298): repeatedly pick
the remaining point nearest to the last emitted one, append it and remove
it from the pool.  `fuel` is the pool size, so the loop runs to
exhaustion exactly as the source's `while (remaining.length > 0)`. -/
noncomputable def stitch : ℕ → Vec3 → List Vec3 → List Vec3
  | 0, _, _ => []
  | _ + 1, _, [] => []
  | fuel + 1, current, r0 :: rs =>
      let idx := findNearestIdx current r0 rs
      let p := (r0 :: rs).getD idx r0
      p :: stitch fuel p ((r0 :: rs).eraseIdx idx)

/-- ModelFileParser.sortContourPoints (lines 277-301): inputs of length
≤ 2 are returned unchanged; otherwise start from the first point and
greedily stitch by nearest neighbour. -/
noncomputable def sortContourPoints (points : List Vec3) : List Vec3 :=
  if points.length ≤ 2 then points
  else
    match points with
    | [] => []
    | p0 :: rest => p0 :: stitch rest.length p0 rest

/-- ModelFileParser.generateSliceContour (lines 220-249): collect the
plane intersections of every indexed triangle (a geometry without an
index contributes nothing), then stitch when more than 2 points. -/
noncomputable def generateSliceContour (g : BufferGeometry) (z : ℚ) :
    List Vec3 :=
  let positions := g.position.getD []
  let tolerance : ℚ := 1 / 10
  let contour : List Vec3 :=
    match g.index with
    | some indices =>
        (triples indices).foldl
          (fun contour t =>
            let v1 := positions.getD t.1 ⟨0, 0, 0⟩
            let v2 := positions.getD t.2.1 ⟨0, 0, 0⟩
            let v3 := positions.getD t.2.2 ⟨0, 0, 0⟩
            contour ++ getTriangleZPlaneIntersections v1 v2 v3 z tolerance) []
    | none => []
  if 2 < contour.length then sortContourPoints contour else contour

/-- ModelFileParser.generateCuttingPaths (lines 199-218): slice at the 21
heights minZ + i * sliceHeight for i = 0..20 and keep the non-empty
contours.  `boundingBox!` is the source's non-null assertion; callers
always run computeBoundingBox first (parseFile line 86). -/
noncomputable def generateCuttingPaths (g : BufferGeometry) :
    List (List Vec3) :=
  let boundingBox := g.boundingBox.getD emptyBox
  let sliceCount : ℕ := 20
  let minZ := boundingBox.lo.z
  let maxZ := boundingBox.hi.z
  let sliceHeight := (maxZ - minZ) / (sliceCount : ℚ)
  (List.range (sliceCount + 1)).foldl
    (fun (paths : List (List Vec3)) (i : ℕ) =>
      let z := minZ + (i : ℚ) * sliceHeight
      let slicePath := generateSliceContour g z
      if 0 < slicePath.length then paths ++ [slicePath] else paths) []

/-- The centering and rescaling step of parseFile (lines 76-85): translate
by -center, then scale uniformly by 100 / maxDimension.  (JS yields an
Infinity scale for a zero maxDimension; there is no failure branch in
either semantics.) -/
def normalizePositions (ps : List Vec3) : List Vec3 :=
  let boundingBox := computeBoundingBox ps
  let center := boundingBox.getCenter
  let scale := 100 / boundingBox.maxDimension
  (ps.map fun p => (⟨p.x - center.x, p.y - center.y, p.z - center.z⟩ : Vec3)).map
    fun p => ⟨p.x * scale, p.y * scale, p.z * scale⟩

/-- The aggregate result value of a successful parse (ParsedModel, lines
6-18).  `material` and `mesh` are rendering-only wrappers with no
geometric content and are omitted. -/
structure ParsedModel where
  geometry : BufferGeometry
  boundingBox : Box3
  cuttingPaths : List (List Vec3)
  vertices : ℕ
  faces : ℚ
  volume : ℚ
  surfaceArea : ℝ

/-- FileParseResult (lines 20-24). -/
structure FileParseResult where
  success : Bool
  model : Option ParsedModel
  error : Option String

/-- The body of ModelFileParser.parseFile after decoding (lines 63-125):
reject a geometry without a position attribute, then centre, scale,
recompute the bounding box, compute the metadata and the cutting paths,
and assemble a success result.  (Lines 71-74 compute vertex normals when
absent; the normal attribute is omitted from the model as nothing
verified here reads it.) -/
noncomputable def processGeometry (g : BufferGeometry) : FileParseResult :=
  match g.position with
  | none =>
      ⟨false, none, some "Invalid geometry: missing position attributes"⟩
  | some ps =>
      let ps2 := normalizePositions ps
      let boundingBox2 := computeBoundingBox ps2
      let g2 : BufferGeometry := ⟨some ps2, g.index, some boundingBox2⟩
      let vertices := ps2.length
      let faces : ℚ :=
        match g.index with
        | some indices => (indices.length : ℚ) / 3
        | none => (vertices : ℚ) / 3
      let volume := calculateVolume g2
      let surfaceArea := calculateSurfaceArea g2
      let cuttingPaths := generateCuttingPaths g2
      ⟨true,
       some ⟨g2, boundingBox2, cuttingPaths, vertices, faces, volume,
             surfaceArea⟩,
       none⟩

/-- A geometry whose bounding box has maximum dimension 0: every vertex is
the same point (a degenerate point cloud). -/
def degenerateGeom : BufferGeometry :=
  ⟨some [⟨5, 5, 5⟩, ⟨5, 5, 5⟩, ⟨5, 5, 5⟩], none, none⟩

/-- Claim C1 (code bug): the source has no degenerate-geometry check — for
a mesh whose bounding box has maximum dimension 0, parseFile still
computes scale = 100 / maxDimension (Infinity in JS, producing NaN
coordinates via 0 * Infinity) and returns a success result instead of
failing with DegenerateGeometry.  This theorem evaluates the code at the
failing input: the parse succeeds and reports no error. -/
theorem degenerate_geometry_parse_succeeds :
    (processGeometry degenerateGeom).success = true ∧
    (processGeometry degenerateGeom).error = none :=
  ⟨rfl, rfl⟩

/-- A decoded mesh with a present but zero-length position attribute
(zero vertices), e.g. a valid binary STL with triangle count 0. -/
def emptyPositionGeom : BufferGeometry :=
  ⟨some [], none, none⟩

/-- Claim C6 counterexample: a mesh with zero vertices but a present
position attribute is not rejected — parseFile returns success, refuting
"decode fails with MissingPositions whenever the decoded mesh has zero
vertices or no position data". -/
theorem zero_vertices_parse_succeeds :
    (processGeometry emptyPositionGeom).success = true :=
  rfl

/-- Claim C6 (amended): parseFile fails with the MissingPositions error
(success = false, no model, the missing-position-attributes message)
exactly when the decoded geometry has no position attribute; a mesh with
a present but zero-length position attribute is not rejected. -/
theorem missing_positions_fails (g : BufferGeometry)
    (h : g.position = none) :
    processGeometry g =
      ⟨false, none, some "Invalid geometry: missing position attributes"⟩ := by
  unfold processGeometry
  rw [h]

/-- Claim C6 witness: the amended theorem at the concrete attribute-less
geometry. -/
theorem missing_positions_fails_witness :
    (⟨none, none, none⟩ : BufferGeometry).position = none ∧
    processGeometry ⟨none, none, none⟩ =
      ⟨false, none, some "Invalid geometry: missing position attributes"⟩ :=
  ⟨rfl, missing_positions_fails ⟨none, none, none⟩ rfl⟩

/-- Claim C2 counterexample: a triangle whose middle vertex lies exactly
on the slicing plane — Z coordinates (-1, 0, 1), plane z = 0, tolerance
1/10 as passed by generateSliceContour — emits 3 intersection points (all
three edges qualify), refuting "never 3". -/
theorem triangle_three_intersections :
    (getTriangleZPlaneIntersections ⟨0, 0, -1⟩ ⟨0, 0, 0⟩ ⟨0, 0, 1⟩ 0
      (1 / 10)).length = 3 := by
  norm_num [getTriangleZPlaneIntersections, edgeIntersection, Vec3.lerp,
    abs]

/-- Claim C2 (amended): the per-triangle plane-intersection routine emits
one point per qualifying edge, so it emits 0, 1, 2 or 3 points — never
more than 3 — and the number of points equals the number of the
triangle's three edges that cross the plane (span it within tolerance
with endpoint Z values differing by more than tolerance); 3 points occur
when all three edges qualify, e.g. a vertex lying on the plane. -/
theorem intersections_count_eq_qualifying_edges (v1 v2 v3 : Vec3)
    (z tolerance : ℚ) :
    (getTriangleZPlaneIntersections v1 v2 v3 z tolerance).length =
      ([(v1, v2), (v2, v3), (v3, v1)].countP fun e =>
        decide (edgeQualifies e.1 e.2 z tolerance)) ∧
    (getTriangleZPlaneIntersections v1 v2 v3 z tolerance).length ≤ 3 := by
  have hedge : ∀ s e : Vec3, (edgeIntersection s e z tolerance).length =
      if edgeQualifies s e z tolerance then 1 else 0 := by
    intro s e
    by_cases h1 : (s.z ≤ z + tolerance ∧ e.z ≥ z - tolerance) ∨
        (s.z ≥ z - tolerance ∧ e.z ≤ z + tolerance)
    · by_cases h2 : tolerance < |s.z - e.z|
      · unfold edgeIntersection
        rw [if_pos h1, if_pos h2,
          if_pos (show edgeQualifies s e z tolerance from ⟨h1, h2⟩)]
        rfl
      · unfold edgeIntersection
        rw [if_pos h1, if_neg h2,
          if_neg (fun hq : edgeQualifies s e z tolerance => h2 hq.2)]
        rfl
    · unfold edgeIntersection
      rw [if_neg h1,
        if_neg (fun hq : edgeQualifies s e z tolerance => h1 hq.1)]
      rfl
  have h : (getTriangleZPlaneIntersections v1 v2 v3 z tolerance).length =
      ([(v1, v2), (v2, v3), (v3, v1)].countP fun e =>
        decide (edgeQualifies e.1 e.2 z tolerance)) := by
    unfold getTriangleZPlaneIntersections
    simp only [List.foldl_cons, List.foldl_nil, List.countP_cons,
      List.countP_nil, List.length_append, List.length_nil, hedge,
      decide_eq_true_eq]
    split_ifs <;> omega
  refine ⟨h, ?_⟩
  rw [h]
  exact le_trans (List.countP_le_length _) (by simp)

/-- Pushing each non-empty value produced along a list is the same as
filtering the mapped list for non-emptiness. -/
theorem foldl_push_eq_filter (f : ℕ → List Vec3) :
    ∀ (l : List ℕ) (acc : List (List Vec3)),
      l.foldl
        (fun paths i => if 0 < (f i).length then paths ++ [f i] else paths)
        acc
        = acc ++ (l.map f).filter (fun c => 0 < c.length)
  | [], acc => by simp
  | i :: l, acc => by
      rw [List.foldl_cons, foldl_push_eq_filter f l]
      by_cases h : 0 < (f i).length <;> simp [h]

/-- generateCuttingPaths characterized as a filtered map over the 21
sampled heights. -/
theorem generateCuttingPaths_eq_filter (g : BufferGeometry) :
    generateCuttingPaths g =
      ((List.range 21).map fun (i : ℕ) =>
        generateSliceContour g
          ((g.boundingBox.getD emptyBox).lo.z +
            (i : ℚ) * (((g.boundingBox.getD emptyBox).hi.z -
              (g.boundingBox.getD emptyBox).lo.z) / 20))).filter
        (fun c => 0 < c.length) := by
  unfold generateCuttingPaths
  rw [foldl_push_eq_filter fun (i : ℕ) =>
    generateSliceContour g
      ((g.boundingBox.getD emptyBox).lo.z +
        (i : ℚ) * (((g.boundingBox.getD emptyBox).hi.z -
          (g.boundingBox.getD emptyBox).lo.z) / ((20 : ℕ) : ℚ)))]
  norm_num

/-- Claim C3: a geometry without an index array (a non-indexed triangle
soup, as produced by STL decoding) yields an empty contour at every
slicing height, and therefore generateCuttingPaths returns the empty
sequence of cutting paths. -/
theorem non_indexed_slices_empty (g : BufferGeometry)
    (h : g.index = none) :
    (∀ z, generateSliceContour g z = []) ∧ generateCuttingPaths g = [] := by
  have hs : ∀ z, generateSliceContour g z = [] := by
    intro z
    unfold generateSliceContour
    rw [h]
    simp
  refine ⟨hs, ?_⟩
  rw [generateCuttingPaths_eq_filter]
  simp [hs]

/-- Claim C3 witness: a concrete non-indexed triangle-soup geometry. -/
theorem non_indexed_slices_empty_witness :
    (⟨some [⟨0, 0, 0⟩, ⟨2, 0, 20⟩, ⟨0, 2, 20⟩], none, none⟩ :
        BufferGeometry).index = none ∧
    ((∀ z, generateSliceContour
        ⟨some [⟨0, 0, 0⟩, ⟨2, 0, 20⟩, ⟨0, 2, 20⟩], none, none⟩ z = []) ∧
      generateCuttingPaths
        ⟨some [⟨0, 0, 0⟩, ⟨2, 0, 20⟩, ⟨0, 2, 20⟩], none, none⟩ = []) :=
  ⟨rfl, non_indexed_slices_empty _ rfl⟩

/-- The index kept by the nearest-neighbour scan is either the initial
one or the position of some scanned element. -/
theorem nearestLoop_fst (current : Vec3) :
    ∀ (l : List Vec3) (i : ℕ) (best : ℕ × ℝ),
      (nearestLoop current l i best).1 = best.1 ∨
        ∃ j, j < l.length ∧ (nearestLoop current l i best).1 = i + j
  | [], _, _ => Or.inl rfl
  | q :: qs, i, best => by
      rw [nearestLoop]
      by_cases hc : current.distanceTo q < best.2
      · rw [if_pos hc]
        rcases nearestLoop_fst current qs (i + 1) (i, current.distanceTo q)
          with h | ⟨j, hj, hres⟩
        · exact Or.inr ⟨0, by simp, by simpa using h⟩
        · exact Or.inr ⟨j + 1, by simpa using Nat.succ_lt_succ hj, by omega⟩
      · rw [if_neg hc]
        rcases nearestLoop_fst current qs (i + 1) best
          with h | ⟨j, hj, hres⟩
        · exact Or.inl h
        · exact Or.inr ⟨j + 1, by simpa using Nat.succ_lt_succ hj, by omega⟩

/-- The chosen nearest index never exceeds the number of points scanned
after the first (so it is a valid index into the full remaining pool). -/
theorem findNearestIdx_le (current r0 : Vec3) (rs : List Vec3) :
    findNearestIdx current r0 rs ≤ rs.length := by
  unfold findNearestIdx
  rcases nearestLoop_fst current rs 1 (0, current.distanceTo r0) with
    h | ⟨j, hj, hres⟩
  · rw [h]
    exact Nat.zero_le _
  · rw [hres]
    omega

/-- Removing the element at a valid index and re-consing it in front is a
permutation of the original list. -/
theorem getD_cons_eraseIdx_perm {α : Type} (d : α) :
    ∀ (l : List α) (i : ℕ), i < l.length →
      (l.getD i d :: l.eraseIdx i).Perm l
  | a :: t, 0, _ => by
      simp [List.getD]
  | a :: t, i + 1, h => by
      have ih := getD_cons_eraseIdx_perm d t i (by simpa using h)
      simp only [List.getD_cons_succ, List.eraseIdx_cons_succ]
      exact (List.Perm.swap a (t.getD i d) _).trans (ih.cons a)

/-- The greedy stitching loop returns a permutation of its point pool. -/
theorem stitch_perm :
    ∀ (fuel : ℕ) (current : Vec3) (l : List Vec3), l.length = fuel →
      (stitch fuel current l).Perm l
  | 0, _, l, h => by
      rw [stitch]
      rw [List.length_eq_zero.mp h]
  | _ + 1, _, [], _ => by
      rw [stitch]
  | fuel + 1, current, r0 :: rs, h => by
      rw [stitch]
      have hidx : findNearestIdx current r0 rs < (r0 :: rs).length := by
        have := findNearestIdx_le current r0 rs
        simp only [List.length_cons]
        omega
      have hperm := getD_cons_eraseIdx_perm r0 (r0 :: rs)
        (findNearestIdx current r0 rs) hidx
      have hlen : ((r0 :: rs).eraseIdx (findNearestIdx current r0 rs)).length
          = fuel := by
        have := hperm.length_eq
        simp only [List.length_cons] at this h
        omega
      exact ((stitch_perm fuel _ _ hlen).cons _).trans hperm

/-- sortContourPoints returns a permutation of its input. -/
theorem sortContourPoints_perm (points : List Vec3) :
    (sortContourPoints points).Perm points := by
  unfold sortContourPoints
  split_ifs with h
  · exact List.Perm.refl _
  · cases points with
    | nil => exact List.Perm.refl _
    | cons p0 rest => exact (stitch_perm rest.length p0 rest rfl).cons p0

/-- Claim C10: the greedy contour-stitching routine returns a permutation
of its input — same length and same multiset of points; the output's
first element is the input's first element (in particular when the input
has 3 or more points); and an input with 2 or fewer points is returned
unchanged. -/
theorem sortContourPoints_spec (points : List Vec3) :
    (sortContourPoints points).Perm points ∧
    (sortContourPoints points).length = points.length ∧
    (sortContourPoints points).head? = points.head? ∧
    (points.length ≤ 2 → sortContourPoints points = points) := by
  refine ⟨sortContourPoints_perm points,
    (sortContourPoints_perm points).length_eq, ?_, ?_⟩
  · unfold sortContourPoints
    split_ifs with h
    · rfl
    · cases points with
      | nil => rfl
      | cons p0 rest => rfl
  · intro h
    unfold sortContourPoints
    rw [if_pos h]

/-- Claim C10 witness: a 2-point input satisfies the length ≤ 2
hypothesis of the last conjunct and is returned unchanged. -/
theorem sortContourPoints_spec_witness :
    ([⟨0, 0, 0⟩, ⟨1, 2, 3⟩] : List Vec3).length ≤ 2 ∧
    sortContourPoints [⟨0, 0, 0⟩, ⟨1, 2, 3⟩] = [⟨0, 0, 0⟩, ⟨1, 2, 3⟩] :=
  ⟨by simp,
   (sortContourPoints_spec [⟨0, 0, 0⟩, ⟨1, 2, 3⟩]).2.2.2 (by simp)⟩

/-- Every point an edge emits lies exactly on the slicing plane. -/
theorem mem_edgeIntersection_z {start stop : Vec3} {z tolerance : ℚ}
    {p : Vec3} (h : p ∈ edgeIntersection start stop z tolerance) :
    p.z = z := by
  unfold edgeIntersection at h
  split_ifs at h with h1 h2
  · simp only [List.mem_singleton] at h
    rw [h]
  · simp at h
  · simp at h

/-- Membership in a fold that only appends. -/
theorem mem_foldl_append {α β : Type} (f : β → List α) :
    ∀ (l : List β) (acc : List α) (p : α),
      p ∈ l.foldl (fun acc t => acc ++ f t) acc →
      p ∈ acc ∨ ∃ t ∈ l, p ∈ f t
  | [], acc, p, h => Or.inl (by simpa using h)
  | t0 :: l, acc, p, h => by
      rcases mem_foldl_append f l (acc ++ f t0) p h with h1 | ⟨t, ht, hp⟩
      · rcases List.mem_append.mp h1 with h2 | h2
        · exact Or.inl h2
        · exact Or.inr ⟨t0, by simp, h2⟩
      · exact Or.inr ⟨t, by simp [ht], hp⟩

/-- Every point the per-triangle routine emits lies exactly on the
slicing plane. -/
theorem mem_getTriangleZPlaneIntersections_z {v1 v2 v3 : Vec3}
    {z tolerance : ℚ} {p : Vec3}
    (h : p ∈ getTriangleZPlaneIntersections v1 v2 v3 z tolerance) :
    p.z = z := by
  unfold getTriangleZPlaneIntersections at h
  simp only [List.foldl_cons, List.foldl_nil, List.nil_append,
    List.mem_append] at h
  rcases h with (h | h) | h <;> exact mem_edgeIntersection_z h

/-- Claim C9: every point of every contour returned by the slicer has its
Z coordinate exactly equal to the slicing plane height — so all points of
one slice contour share the same Z, and the stitching step (a
permutation) changes no point's coordinates. -/
theorem slice_contour_on_plane (g : BufferGeometry) (z : ℚ) :
    ∀ p ∈ generateSliceContour g z, p.z = z := by
  intro p hp
  unfold generateSliceContour at hp
  cases hidx : g.index with
  | none =>
      rw [hidx] at hp
      simp at hp
  | some indices =>
      rw [hidx] at hp
      have hraw : ∀ q ∈ (triples indices).foldl
          (fun contour t =>
            contour ++ getTriangleZPlaneIntersections
              ((g.position.getD []).getD t.1 ⟨0, 0, 0⟩)
              ((g.position.getD []).getD t.2.1 ⟨0, 0, 0⟩)
              ((g.position.getD []).getD t.2.2 ⟨0, 0, 0⟩) z (1 / 10)) [],
          q.z = z := by
        intro q hq
        rcases mem_foldl_append _ _ _ q hq with h | ⟨t, _, hmem⟩
        · simp at h
        · exact mem_getTriangleZPlaneIntersections_z hmem
      by_cases hlen : 2 < ((triples indices).foldl
          (fun contour t =>
            contour ++ getTriangleZPlaneIntersections
              ((g.position.getD []).getD t.1 ⟨0, 0, 0⟩)
              ((g.position.getD []).getD t.2.1 ⟨0, 0, 0⟩)
              ((g.position.getD []).getD t.2.2 ⟨0, 0, 0⟩) z (1 / 10)) []).length
      · rw [if_pos hlen] at hp
        exact hraw p ((sortContourPoints_perm _).mem_iff.mp hp)
      · rw [if_neg hlen] at hp
        exact hraw p hp

/-- A one-triangle indexed geometry crossing the plane z = 0. -/
def sliceWitnessGeom : BufferGeometry :=
  ⟨some [⟨0, 0, -1⟩, ⟨2, 0, 1⟩, ⟨0, 3, 1⟩], some [0, 1, 2], none⟩

/-- Claim C9 witness: a concrete contour point of a concrete slice, whose
Z coordinate is the plane height. -/
theorem slice_contour_on_plane_witness :
    (⟨1, 0, 0⟩ : Vec3) ∈ generateSliceContour sliceWitnessGeom 0 ∧
    (⟨1, 0, 0⟩ : Vec3).z = 0 := by
  have heq : generateSliceContour sliceWitnessGeom 0 =
      [⟨1, 0, 0⟩, ⟨0, 3 / 2, 0⟩] := by
    norm_num [generateSliceContour, sliceWitnessGeom, triples, List.getD,
      getTriangleZPlaneIntersections, edgeIntersection, Vec3.lerp, abs]
  have hmem : (⟨1, 0, 0⟩ : Vec3) ∈ generateSliceContour sliceWitnessGeom 0 := by
    rw [heq]
    simp
  exact ⟨hmem, slice_contour_on_plane sliceWitnessGeom 0 ⟨1, 0, 0⟩ hmem⟩

/-- Claim C7: generateCuttingPaths (with its fixed sliceCount of 20)
samples exactly the 21 heights minZ + i * sliceHeight for i = 0..20 in
increasing order of i, keeping a contour only when it is non-empty, so
the result has length at most 21 and contains no empty contour. -/
theorem cutting_paths_sampling (g : BufferGeometry) :
    generateCuttingPaths g =
      ((List.range 21).map fun (i : ℕ) =>
        generateSliceContour g
          ((g.boundingBox.getD emptyBox).lo.z +
            (i : ℚ) * (((g.boundingBox.getD emptyBox).hi.z -
              (g.boundingBox.getD emptyBox).lo.z) / 20))).filter
        (fun c => 0 < c.length) ∧
    (generateCuttingPaths g).length ≤ 21 ∧
    ∀ c ∈ generateCuttingPaths g, c ≠ [] := by
  refine ⟨generateCuttingPaths_eq_filter g, ?_, ?_⟩
  · rw [generateCuttingPaths_eq_filter g]
    exact le_trans (List.length_filter_le _ _) (by simp)
  · intro c hc
    rw [generateCuttingPaths_eq_filter g] at hc
    have hpos := List.of_mem_filter hc
    simp only [decide_eq_true_eq] at hpos
    exact List.ne_nil_of_length_pos hpos

/-- A one-triangle indexed geometry with its bounding box field set, whose
slice at the first sampled height (z = 0) is non-empty. -/
def pathsWitnessGeom : BufferGeometry :=
  ⟨some [⟨0, 0, 0⟩, ⟨2, 0, 20⟩, ⟨0, 2, 20⟩], some [0, 1, 2],
   some ⟨⟨0, 0, 0⟩, ⟨2, 2, 20⟩⟩⟩

/-- Claim C7 witness: a concrete member of a concrete cutting-path list,
shown non-empty by the theorem. -/
theorem cutting_paths_sampling_witness :
    ([⟨0, 0, 0⟩, ⟨0, 0, 0⟩] : List Vec3) ∈
      generateCuttingPaths pathsWitnessGeom ∧
    ([⟨0, 0, 0⟩, ⟨0, 0, 0⟩] : List Vec3) ≠ [] := by
  have hslice : generateSliceContour pathsWitnessGeom
      ((pathsWitnessGeom.boundingBox.getD emptyBox).lo.z +
        ((0 : ℕ) : ℚ) * (((pathsWitnessGeom.boundingBox.getD emptyBox).hi.z -
          (pathsWitnessGeom.boundingBox.getD emptyBox).lo.z) / 20)) =
      [⟨0, 0, 0⟩, ⟨0, 0, 0⟩] := by
    norm_num [generateSliceContour, pathsWitnessGeom, triples, List.getD,
      getTriangleZPlaneIntersections, edgeIntersection, Vec3.lerp, abs,
      emptyBox]
  have hmem : ([⟨0, 0, 0⟩, ⟨0, 0, 0⟩] : List Vec3) ∈
      generateCuttingPaths pathsWitnessGeom := by
    rw [generateCuttingPaths_eq_filter]
    refine List.mem_filter.mpr ⟨List.mem_map.mpr ⟨0, ?_, hslice⟩, by simp⟩
    simp
  exact ⟨hmem,
    (cutting_paths_sampling pathsWitnessGeom).2.2 _ hmem⟩

attribute [ext] Vec3 Box3

/-- Folding the bounding box accumulates a running minimum per axis
(stated for the X axis; the Y and Z axes are the analogous lemmas). -/
theorem fold_expand_lo_x :
    ∀ (l : List Vec3) (b : Box3),
      (l.foldl expandByPoint b).lo.x = (l.map Vec3.x).foldl min b.lo.x
  | [], _ => rfl
  | p :: l, b => by
      rw [List.foldl_cons, List.map_cons, List.foldl_cons]
      exact fold_expand_lo_x l _

theorem fold_expand_lo_y :
    ∀ (l : List Vec3) (b : Box3),
      (l.foldl expandByPoint b).lo.y = (l.map Vec3.y).foldl min b.lo.y
  | [], _ => rfl
  | p :: l, b => by
      rw [List.foldl_cons, List.map_cons, List.foldl_cons]
      exact fold_expand_lo_y l _

theorem fold_expand_lo_z :
    ∀ (l : List Vec3) (b : Box3),
      (l.foldl expandByPoint b).lo.z = (l.map Vec3.z).foldl min b.lo.z
  | [], _ => rfl
  | p :: l, b => by
      rw [List.foldl_cons, List.map_cons, List.foldl_cons]
      exact fold_expand_lo_z l _

theorem fold_expand_hi_x :
    ∀ (l : List Vec3) (b : Box3),
      (l.foldl expandByPoint b).hi.x = (l.map Vec3.x).foldl max b.hi.x
  | [], _ => rfl
  | p :: l, b => by
      rw [List.foldl_cons, List.map_cons, List.foldl_cons]
      exact fold_expand_hi_x l _

theorem fold_expand_hi_y :
    ∀ (l : List Vec3) (b : Box3),
      (l.foldl expandByPoint b).hi.y = (l.map Vec3.y).foldl max b.hi.y
  | [], _ => rfl
  | p :: l, b => by
      rw [List.foldl_cons, List.map_cons, List.foldl_cons]
      exact fold_expand_hi_y l _

theorem fold_expand_hi_z :
    ∀ (l : List Vec3) (b : Box3),
      (l.foldl expandByPoint b).hi.z = (l.map Vec3.z).foldl max b.hi.z
  | [], _ => rfl
  | p :: l, b => by
      rw [List.foldl_cons, List.map_cons, List.foldl_cons]
      exact fold_expand_hi_z l _

/-- A running minimum over a projected coordinate commutes with the
affine map x ↦ (x - c) * s for a non-negative scale s. -/
theorem foldl_min_affine (f : Vec3 → ℚ) (c s : ℚ) (hs : 0 ≤ s) :
    ∀ (l : List Vec3) (a : ℚ),
      (l.map fun p => (f p - c) * s).foldl min ((a - c) * s) =
        ((l.map f).foldl min a - c) * s
  | [], _ => rfl
  | p :: l, a => by
      rw [List.map_cons, List.foldl_cons, List.map_cons, List.foldl_cons]
      have hmin : min ((a - c) * s) ((f p - c) * s) = (min a (f p) - c) * s := by
        rcases le_total a (f p) with h | h
        · rw [min_eq_left h, min_eq_left (by nlinarith)]
        · rw [min_eq_right h, min_eq_right (by nlinarith)]
      rw [hmin]
      exact foldl_min_affine f c s hs l (min a (f p))

/-- A running maximum over a projected coordinate commutes with the
affine map x ↦ (x - c) * s for a non-negative scale s. -/
theorem foldl_max_affine (f : Vec3 → ℚ) (c s : ℚ) (hs : 0 ≤ s) :
    ∀ (l : List Vec3) (a : ℚ),
      (l.map fun p => (f p - c) * s).foldl max ((a - c) * s) =
        ((l.map f).foldl max a - c) * s
  | [], _ => rfl
  | p :: l, a => by
      rw [List.map_cons, List.foldl_cons, List.map_cons, List.foldl_cons]
      have hmax : max ((a - c) * s) ((f p - c) * s) = (max a (f p) - c) * s := by
        rcases le_total a (f p) with h | h
        · rw [max_eq_right h, max_eq_right (by nlinarith)]
        · rw [max_eq_left h, max_eq_left (by nlinarith)]
      rw [hmax]
      exact foldl_max_affine f c s hs l (max a (f p))

/-- The bounding box of a non-empty point list transformed by the affine
map p ↦ (p - c) * s (componentwise, 0 ≤ s) is the transform of the
original bounding box. -/
theorem computeBoundingBox_affine (c : Vec3) (s : ℚ) (hs : 0 ≤ s)
    (p0 : Vec3) (rest : List Vec3) :
    computeBoundingBox ((p0 :: rest).map fun p =>
        (⟨(p.x - c.x) * s, (p.y - c.y) * s, (p.z - c.z) * s⟩ : Vec3)) =
      ⟨⟨((computeBoundingBox (p0 :: rest)).lo.x - c.x) * s,
        ((computeBoundingBox (p0 :: rest)).lo.y - c.y) * s,
        ((computeBoundingBox (p0 :: rest)).lo.z - c.z) * s⟩,
       ⟨((computeBoundingBox (p0 :: rest)).hi.x - c.x) * s,
        ((computeBoundingBox (p0 :: rest)).hi.y - c.y) * s,
        ((computeBoundingBox (p0 :: rest)).hi.z - c.z) * s⟩⟩ := by
  rw [List.map_cons]
  simp only [computeBoundingBox]
  ext
  · rw [fold_expand_lo_x, fold_expand_lo_x, List.map_map]
    simp only [Function.comp_def]
    rw [foldl_min_affine Vec3.x c.x s hs rest p0.x]
  · rw [fold_expand_lo_y, fold_expand_lo_y, List.map_map]
    simp only [Function.comp_def]
    rw [foldl_min_affine Vec3.y c.y s hs rest p0.y]
  · rw [fold_expand_lo_z, fold_expand_lo_z, List.map_map]
    simp only [Function.comp_def]
    rw [foldl_min_affine Vec3.z c.z s hs rest p0.z]
  · rw [fold_expand_hi_x, fold_expand_hi_x, List.map_map]
    simp only [Function.comp_def]
    rw [foldl_max_affine Vec3.x c.x s hs rest p0.x]
  · rw [fold_expand_hi_y, fold_expand_hi_y, List.map_map]
    simp only [Function.comp_def]
    rw [foldl_max_affine Vec3.y c.y s hs rest p0.y]
  · rw [fold_expand_hi_z, fold_expand_hi_z, List.map_map]
    simp only [Function.comp_def]
    rw [foldl_max_affine Vec3.z c.z s hs rest p0.z]

/-- normalizePositions is one affine map per point: subtract the
bounding-box center, multiply by 100 / maxDimension. -/
theorem normalizePositions_eq_map (ps : List Vec3) :
    normalizePositions ps = ps.map fun p =>
      (⟨(p.x - (computeBoundingBox ps).getCenter.x) *
          (100 / (computeBoundingBox ps).maxDimension),
        (p.y - (computeBoundingBox ps).getCenter.y) *
          (100 / (computeBoundingBox ps).maxDimension),
        (p.z - (computeBoundingBox ps).getCenter.z) *
          (100 / (computeBoundingBox ps).maxDimension)⟩ : Vec3) := by
  unfold normalizePositions
  rw [List.map_map]
  rfl

/-- The maximum dimension of an affinely transformed box (shift by -c,
scale by 0 ≤ s) is the original maximum dimension times s. -/
theorem maxDimension_affine (b : Box3) (c : Vec3) (s : ℚ) (hs : 0 ≤ s) :
    Box3.maxDimension
      ⟨⟨(b.lo.x - c.x) * s, (b.lo.y - c.y) * s, (b.lo.z - c.z) * s⟩,
       ⟨(b.hi.x - c.x) * s, (b.hi.y - c.y) * s, (b.hi.z - c.z) * s⟩⟩ =
      b.maxDimension * s := by
  unfold Box3.maxDimension Box3.getSize
  simp only
  have h1 : (b.hi.x - c.x) * s - (b.lo.x - c.x) * s = (b.hi.x - b.lo.x) * s :=
    by ring
  have h2 : (b.hi.y - c.y) * s - (b.lo.y - c.y) * s = (b.hi.y - b.lo.y) * s :=
    by ring
  have h3 : (b.hi.z - c.z) * s - (b.lo.z - c.z) * s = (b.hi.z - b.lo.z) * s :=
    by ring
  rw [h1, h2, h3, ← max_mul_of_nonneg (b.hi.y - b.lo.y) (b.hi.z - b.lo.z) hs,
    ← max_mul_of_nonneg (b.hi.x - b.lo.x)
      (max (b.hi.y - b.lo.y) (b.hi.z - b.lo.z)) hs]

/-- Claim C5: for a mesh whose pre-normalization bounding box has maximum
dimension > 0, the bounding box recomputed after the normalization step
(translate by -center, scale by 100 / maxDimension) has its center
exactly at the origin and maximum dimension exactly 100 (the model uses
exact rational arithmetic, so "within floating-point tolerance" holds
with zero error). -/
theorem normalize_roundtrip (ps : List Vec3) (hne : ps ≠ [])
    (hdim : 0 < (computeBoundingBox ps).maxDimension) :
    (computeBoundingBox (normalizePositions ps)).getCenter = ⟨0, 0, 0⟩ ∧
    (computeBoundingBox (normalizePositions ps)).maxDimension = 100 := by
  obtain ⟨p0, rest, rfl⟩ : ∃ p0 rest, ps = p0 :: rest := by
    cases ps with
    | nil => exact absurd rfl hne
    | cons p0 rest => exact ⟨p0, rest, rfl⟩
  have hs : 0 ≤ 100 / (computeBoundingBox (p0 :: rest)).maxDimension :=
    le_of_lt (div_pos (by norm_num) hdim)
  rw [normalizePositions_eq_map, computeBoundingBox_affine _ _ hs]
  constructor
  · ext <;>
      simp only [Box3.getCenter, Box3.getSize] <;>
      ring
  · rw [maxDimension_affine _ _ _ hs]
    have hne0 : (computeBoundingBox (p0 :: rest)).maxDimension ≠ 0 :=
      ne_of_gt hdim
    field_simp

/-- Claim C5 witness: a concrete two-point mesh of X-extent 2 satisfies
both hypotheses, and its normalized bounding box is centred at the origin
with maximum dimension 100. -/
theorem normalize_roundtrip_witness :
    ([⟨0, 0, 0⟩, ⟨2, 0, 0⟩] : List Vec3) ≠ [] ∧
    0 < (computeBoundingBox [⟨0, 0, 0⟩, ⟨2, 0, 0⟩]).maxDimension ∧
    ((computeBoundingBox
        (normalizePositions [⟨0, 0, 0⟩, ⟨2, 0, 0⟩])).getCenter = ⟨0, 0, 0⟩ ∧
      (computeBoundingBox
        (normalizePositions [⟨0, 0, 0⟩, ⟨2, 0, 0⟩])).maxDimension = 100) :=
  ⟨by simp,
   by norm_num [computeBoundingBox, expandByPoint, Box3.maxDimension,
     Box3.getSize, min_def, max_def],
   normalize_roundtrip [⟨0, 0, 0⟩, ⟨2, 0, 0⟩] (by simp)
     (by norm_num [computeBoundingBox, expandByPoint, Box3.maxDimension,
       Box3.getSize, min_def, max_def])⟩

/-- Splitting a concatenation whose first part has length a multiple of 3
splits the triple chunking. -/
theorem triples_append {α : Type} :
    ∀ (l1 l2 : List α), 3 ∣ l1.length →
      triples (l1 ++ l2) = triples l1 ++ triples l2
  | [], _, _ => rfl
  | [a], _, h => by simp at h
  | [a, b], _, h => by simp at h; omega
  | a :: b :: c :: rest, l2, h => by
      have h3 : 3 ∣ rest.length := by
        simp only [List.length_cons] at h
        omega
      simp only [List.cons_append, triples]
      exact congrArg (List.cons (a, b, c)) (triples_append rest l2 h3)

/-- Claim C8: the surface area computed over the mesh formed by
concatenating the triangles of two (non-indexed) meshes equals the sum of
the surface areas of the two meshes — the triangle-area sum is additive
over the triangle list, in particular for two disjointly placed meshes. -/
theorem surface_area_additive (ps1 ps2 : List Vec3)
    (h : 3 ∣ ps1.length) :
    calculateSurfaceArea ⟨some (ps1 ++ ps2), none, none⟩ =
      calculateSurfaceArea ⟨some ps1, none, none⟩ +
      calculateSurfaceArea ⟨some ps2, none, none⟩ := by
  unfold calculateSurfaceArea
  simp only [Option.getD_some]
  rw [triples_append ps1 ps2 h]
  rw [foldl_add_map
      (fun t : Vec3 × Vec3 × Vec3 =>
        ((t.2.1.sub t.1).cross (t.2.2.sub t.1)).length / 2),
    foldl_add_map
      (fun t : Vec3 × Vec3 × Vec3 =>
        ((t.2.1.sub t.1).cross (t.2.2.sub t.1)).length / 2),
    foldl_add_map
      (fun t : Vec3 × Vec3 × Vec3 =>
        ((t.2.1.sub t.1).cross (t.2.2.sub t.1)).length / 2)]
  rw [List.map_append, List.sum_append]
  ring

/-- Claim C8 witness: two concrete one-triangle meshes. -/
theorem surface_area_additive_witness :
    3 ∣ ([⟨0, 0, 0⟩, ⟨1, 0, 0⟩, ⟨0, 1, 0⟩] : List Vec3).length ∧
    calculateSurfaceArea
        ⟨some ([⟨0, 0, 0⟩, ⟨1, 0, 0⟩, ⟨0, 1, 0⟩] ++
          [⟨0, 0, 5⟩, ⟨2, 0, 5⟩, ⟨0, 2, 5⟩]), none, none⟩ =
      calculateSurfaceArea
        ⟨some [⟨0, 0, 0⟩, ⟨1, 0, 0⟩, ⟨0, 1, 0⟩], none, none⟩ +
      calculateSurfaceArea
        ⟨some [⟨0, 0, 5⟩, ⟨2, 0, 5⟩, ⟨0, 2, 5⟩], none, none⟩ :=
  ⟨by simp,
   surface_area_additive [⟨0, 0, 0⟩, ⟨1, 0, 0⟩, ⟨0, 1, 0⟩]
     [⟨0, 0, 5⟩, ⟨2, 0, 5⟩, ⟨0, 2, 5⟩] (by simp)⟩

end WireEDM
